import Mathlib

/-!
The authentication callout and the disconnect reaper of nats-uniq-client-name.

A shallow embedding of `internal/uniq/uniq.go`: the two handlers
`DB.Authentication` and `DB.Disconnection`, the Redis commands they issue
(`SETNX`, `GET`, `DEL`) over an explicit store state, and the library
functions whose results decide the handlers' branches
(`base64.StdEncoding.EncodeToString`, the decimal rendering of a `uint64`
argument by the Redis client, `strconv.Atoi` behind `StringCmd.Int`).

Conventions.
* A Go `string` whose bytes matter (the client display name) is a list of
  bytes; the other strings are only compared, and are Lean strings.
* A Go `map` is the list of its entries in the order one `range` loop visits
  them; every handler call receives the table in the order of that call.
* `int` is the 64-bit signed integer of the platforms the service is built
  for; `uint64` values are natural numbers below `2 ^ 64`.
* A nil pointer dereference ends the handler call with `Reply.crashed`.
* The steps that leave the process (store commands, signing, the reply) can
  fail; which of them fail in a call is the `Faults` argument of the call.
  A store command that fails has not been applied.
-/

namespace Uniq

/-! ## Library functions -/

/-- One byte of a Go string. -/
abbrev Byte := Fin 256

/-- Alphabet of `base64.StdEncoding`. -/
def encodeStd : List Char :=
  "ABCDEFGHIJKLMNOPQRSTUVWXYZabcdefghijklmnopqrstuvwxyz0123456789+/".data

/-- Character of a 6-bit value in the standard alphabet. -/
def encodeChar (v : Nat) : Char := encodeStd.getD v 'A'

/-- Padding character of `base64.StdEncoding`. -/
def StdPadding : Char := '='

/-- Go `base64.StdEncoding.EncodeToString`: every three bytes give four
characters; a remainder of one or two bytes gives two or three characters
followed by padding up to four. -/
def EncodeToString : List Byte → List Char
  | [] => []
  | [a] =>
    [encodeChar (a.val / 4), encodeChar (a.val % 4 * 16), StdPadding, StdPadding]
  | [a, b] =>
    [encodeChar (a.val / 4), encodeChar (a.val % 4 * 16 + b.val / 16),
     encodeChar (b.val % 16 * 4), StdPadding]
  | a :: b :: c :: rest =>
    encodeChar (a.val / 4) :: encodeChar (a.val % 4 * 16 + b.val / 16) ::
    encodeChar (b.val % 16 * 4 + c.val / 64) :: encodeChar (c.val % 64) ::
    EncodeToString rest

/-- Digit loop of Go `strconv.FormatUint` in base 10: the digits of `u` are
put in front of `acc`, least significant first. -/
def formatBits : Nat → Nat → List Char → List Char
  | 0, _, acc => acc
  | fuel + 1, u, acc =>
    if u < 10 then Nat.digitChar u :: acc
    else formatBits fuel (u / 10) (Nat.digitChar (u % 10) :: acc)

/-- Decimal rendering of an unsigned integer, as the Redis client writes a
`uint64` command argument (`strconv.AppendUint(b, v, 10)`). -/
def FormatUint (u : Nat) : String := ⟨formatBits (u + 1) u []⟩

/-- Greatest value of Go `int` on a 64-bit platform. -/
def maxInt : Int := 2 ^ 63 - 1

/-- Least value of Go `int` on a 64-bit platform. -/
def minInt : Int := -(2 ^ 63)

/-- Value of a string of decimal digits, `none` when a character is not a
digit. -/
def parseDigits : List Char → Nat → Option Nat
  | [], acc => some acc
  | c :: cs, acc =>
    if c.isDigit then parseDigits cs (acc * 10 + (c.toNat - '0'.toNat)) else none

/-- Go `strconv.Atoi`: an optional sign, then at least one decimal digit and
nothing else; a value outside `int` is a range error. `none` is any error. -/
def Atoi (s : String) : Option Int :=
  let signed : Bool × List Char :=
    match s.data with
    | '-' :: r => (true, r)
    | '+' :: r => (false, r)
    | l => (false, l)
  if signed.2.isEmpty then none
  else
    match parseDigits signed.2 0 with
    | none => none
    | some un =>
      if signed.1 then (if (2 : Nat) ^ 63 < un then none else some (-(un : Int)))
      else (if (2 : Nat) ^ 63 ≤ un then none else some (un : Int))

/-! ## Reservation store -/

/-- State of the key-value store: the keys that exist, with their values. -/
abbrev Store := List (String × String)

/-- Store command issued by a handler. -/
inductive StoreOp where
  | setnx (key : String) (value : String)
  | get (key : String)
  | del (key : String)
  deriving DecidableEq

/-- Redis `GET`: the value of the key, `none` for the nil reply. -/
def Get (db : Store) (key : String) : Option String := db.lookup key

/-- Redis `SETNX`: set the key if it does not exist; the flag tells whether it
was set. -/
def SetNX (db : Store) (key : String) (value : String) : Bool × Store :=
  match db.lookup key with
  | some _ => (false, db)
  | none => (true, (key, value) :: db)

/-- Redis `DEL`: remove the key. -/
def Del (db : Store) (key : String) : Store := db.filter (fun e => e.1 != key)

/-- Steps of one handler call that fail: the store commands, the two
signatures and the reply. -/
structure Faults where
  setnx : Bool
  get : Bool
  del : Bool
  encodeToken : Bool
  encodeResponse : Bool
  respond : Bool
  deriving DecidableEq

/-- No step fails. -/
def Faults.none : Faults := ⟨false, false, false, false, false, false⟩

/-! ## Data model -/

/-- Account table `map[string]map[string]string`, as the entries one `range`
loop visits, in that order. -/
abbrev Accounts := List (String × List (String × String))

/-- Fields of the decoded `jwt.AuthorizationRequestClaims` that `Authentication`
reads. `ID` is a `uint64`. -/
structure AuthorizationRequest where
  Issuer : String
  ServerID : String
  Audience : String
  UserNkey : String
  Username : String
  Password : String
  Name : List Byte
  ID : Nat
  deriving DecidableEq

/-- User claims the session token encodes. -/
structure UserClaims where
  Subject : String
  Audience : String
  deriving DecidableEq

/-- Fields of `jwt.AuthorizationResponseClaims`; `Jwt` is `none` while the
field is empty. -/
structure AuthorizationResponse where
  Subject : String
  Audience : String
  Error : String
  Jwt : Option UserClaims
  deriving DecidableEq

/-- Fields of `Disconnect.Client` that `Disconnection` reads. In a payload
`Id` is the JSON number as written; after `Unmarshal` it is an `int`. -/
structure Disconnect where
  Account : String
  Name : List Byte
  Id : Int
  deriving DecidableEq

/-- Errors the handlers return. -/
inductive Error where
  | decode
  | expectedServer
  | issuersDontMatch
  | unexpectedAudience
  | setFailed
  | encodeToken
  | encodeResponse
  | respond
  | unmarshal
  | getFailed
  | mismatch
  | delFailed
  deriving DecidableEq

/-- What a call of `Authentication` ends with: the response it published as
the reply (and `nil` returned); the error it returned, in which case nothing
was published; or a nil pointer dereference, in which case the handler
neither returns nor publishes. -/
inductive Reply where
  | sent (res : AuthorizationResponse)
  | failed (err : Error)
  | crashed
  deriving DecidableEq

/-- Outcome of one `Authentication` call: how it ended, the store afterwards,
the store commands issued, in order. -/
structure AuthResult where
  out : Reply
  db : Store
  ops : List StoreOp
  deriving DecidableEq

/-- Outcome of one `Disconnection` call: the error returned (`none` for
`nil`), the store afterwards, the store commands issued. -/
structure DiscResult where
  err : Option Error
  db : Store
  ops : List StoreOp
  deriving DecidableEq

/-! ## Handlers -/

/-- Reservation key of a display name,
`fmt.Sprintf("UNIQUER/%s", base64.StdEncoding.EncodeToString([]byte(name)))`. -/
def reservationKey (name : List Byte) : String :=
  "UNIQUER/" ++ String.mk (EncodeToString name)

/-- Go `jwt.NewAuthorizationResponseClaims`: the claims with the given subject,
`nil` (here `none`) for an empty subject. -/
def NewAuthorizationResponseClaims (user : String) : Option AuthorizationResponse :=
  if user = "" then none else some ⟨user, "", "", none⟩

/-- Go `jwt.NewUserClaims`: the claims with the given subject, `nil` (here
`none`) for an empty subject. -/
def NewUserClaims (subject : String) : Option UserClaims :=
  if subject = "" then none else some ⟨subject, ""⟩

/-- Loop `for account, users = range accounts` of `Authentication`: the
state is `(account, password, ok)`; every entry visited overwrites it with
the entry's key and the result of `users[username]`, and the loop stops at
the first entry where the lookup succeeds. -/
def scanLoop (username : String) :
    Accounts → String × String × Bool → String × String × Bool
  | [], st => st
  | (account, users) :: rest, _ =>
    match users.lookup username with
    | some password => (account, password, true)
    | none => scanLoop username rest (account, "", false)

/-- Account scan of `Authentication`, from the zero values of `account`,
`password` and `ok`. -/
def scan (accounts : Accounts) (username : String) : String × String × Bool :=
  scanLoop username accounts ("", "", false)

/-- Tail of `Authentication`: `res.Encode(keys)` and `msg.Respond`. -/
def respond (f : Faults) (res : AuthorizationResponse) (db : Store)
    (ops : List StoreOp) : AuthResult :=
  if f.encodeResponse then ⟨.failed .encodeResponse, db, ops⟩
  else if f.respond then ⟨.failed .respond, db, ops⟩
  else ⟨.sent res, db, ops⟩

/-- The `default` case of the switch of `Authentication`: `claims.Encode(keys)`
and `res.Jwt = token`, then the tail. -/
def grant (f : Faults) (res : AuthorizationResponse) (claims : UserClaims)
    (db : Store) (ops : List StoreOp) : AuthResult :=
  if f.encodeToken then ⟨.failed .encodeToken, db, ops⟩
  else respond f { res with Jwt := some claims } db ops

/-- `DB.Authentication`. The message is the result of
`jwt.DecodeAuthorizationRequestClaims` on its data, `none` when that fails.
For an empty user key the two claims constructors return `nil`, and the
assignment `res.Audience = req.Server.ID` that follows the first one
dereferences it: the handler panics before the scan, with no store command
and no reply. -/
def Authentication (f : Faults) (accounts : Accounts) (db : Store)
    (msg : Option AuthorizationRequest) : AuthResult :=
  match msg with
  | none => ⟨.failed .decode, db, []⟩
  | some req =>
    if !("N".data.isPrefixOf req.Issuer.data) then ⟨.failed .expectedServer, db, []⟩
    else if req.Issuer != req.ServerID then ⟨.failed .issuersDontMatch, db, []⟩
    else if req.Audience != "nats-authorization-request" then
      ⟨.failed .unexpectedAudience, db, []⟩
    else
      match NewAuthorizationResponseClaims req.UserNkey with
      | none => ⟨.crashed, db, []⟩
      | some res0 =>
        let res : AuthorizationResponse := { res0 with Audience := req.ServerID }
        match NewUserClaims req.UserNkey with
        | none => ⟨.crashed, db, []⟩
        | some claims0 =>
          let claims : UserClaims := { claims0 with Audience := "$G" }
          let st := scan accounts req.Username
          let account := st.1
          let password := st.2.1
          let ok := st.2.2
          if (req.Username != "" && !ok) || password != req.Password then
            respond f { res with Error := "Authentication Failed" } db []
          else if req.Username != "" then
            let key := reservationKey req.Name
            let value := FormatUint req.ID
            if f.setnx then ⟨.failed .setFailed, db, [.setnx key value]⟩
            else
              let r := SetNX db key value
              if !r.1 then
                respond f { res with Error := "Unique Client Name Required" } r.2
                  [.setnx key value]
              else
                grant f res { claims with Audience := account } r.2 [.setnx key value]
          else
            grant f res claims db []

/-- Go `json.Unmarshal` into `Disconnect`: `none` is data that is not a JSON
document of that shape; a client id outside `int` is an error. -/
def Unmarshal (data : Option Disconnect) : Option Disconnect :=
  match data with
  | none => none
  | some req => if minInt ≤ req.Id ∧ req.Id ≤ maxInt then some req else none

/-- `DB.Disconnection`. -/
def Disconnection (f : Faults) (accounts : Accounts) (db : Store)
    (msg : Option Disconnect) : DiscResult :=
  match Unmarshal msg with
  | none => ⟨some .unmarshal, db, []⟩
  | some req =>
    match accounts.lookup req.Account with
    | none => ⟨none, db, []⟩
    | some _ =>
      let key := reservationKey req.Name
      if f.get then ⟨some .getFailed, db, [.get key]⟩
      else
        match Get db key with
        | none => ⟨some .getFailed, db, [.get key]⟩
        | some val =>
          match Atoi val with
          | none => ⟨some .getFailed, db, [.get key]⟩
          | some id =>
            if id != req.Id then ⟨some .mismatch, db, [.get key]⟩
            else if f.del then ⟨some .delFailed, db, [.get key, .del key]⟩
            else ⟨none, Del db key, [.get key, .del key]⟩

/-- The handler serving authentication requests one after another against
one store: every delivery comes with the order in which its scan visits the
account table; the store of each call is the one the previous call left. A
crash of the handler ends the process: the requests after it are not
handled. -/
def serve (f : Faults) :
    Store → List (Accounts × AuthorizationRequest) → List AuthResult
  | _, [] => []
  | db, (accounts, req) :: rest =>
    let r := Authentication f accounts db (some req)
    match r.out with
    | .crashed => [r]
    | _ => r :: serve f r.db rest

/-- A response that grants: no error text, a session token. -/
def isGrant (r : AuthResult) : Bool :=
  match r.out with
  | .sent res => res.Error == "" && res.Jwt.isSome
  | _ => false

/-- A response that denies with the given reason and carries no token. -/
def isDenial (reason : String) (r : AuthResult) : Bool :=
  match r.out with
  | .sent res => res.Error == reason && res.Jwt.isNone
  | _ => false

/-- Envelope validation of `Authentication` passes. -/
def validEnvelope (req : AuthorizationRequest) : Bool :=
  "N".data.isPrefixOf req.Issuer.data && req.Issuer == req.ServerID &&
    req.Audience == "nats-authorization-request"


/-- Key of a store command. -/
def StoreOp.key : StoreOp → String
  | .setnx key _ => key
  | .get key => key
  | .del key => key

/-! ## Sample data -/

/-- The request of the deployment of `main.go`, `staff`/`password`, with the
given username, password and connection id and the display name `alice`. -/
def sampleRequest (username password : String) (id : Nat) : AuthorizationRequest :=
  ⟨"NSERVER", "NSERVER", "nats-authorization-request", "UUSER", username, password,
    [97, 108, 105, 99, 101], id⟩

/-- The same request with an empty user key. -/
def keylessRequest (username password : String) (id : Nat) : AuthorizationRequest :=
  { sampleRequest username password id with UserNkey := "" }

/-- Account table of `main.go`. -/
def sampleAccounts : Accounts := [("APP", [("staff", "password")])]

/-- Two accounts that both have the user `u`, visited `A` first. -/
def twoAccounts : Accounts := [("A", [("u", "p1")]), ("B", [("u", "p2")])]

/-! ## The account scan -/

theorem scanLoop_found (u : String) (accounts : Accounts) :
    ∀ st : String × String × Bool, st.2.2 = false →
      (scanLoop u accounts st).2.2 = true →
      ∃ e ∈ accounts, e.1 = (scanLoop u accounts st).1 ∧
        e.2.lookup u = some (scanLoop u accounts st).2.1 := by
  induction accounts with
  | nil => intro st h0 h; simp [scanLoop, h0] at h
  | cons e rest ih =>
    intro st _ h
    obtain ⟨a, us⟩ := e
    cases hl : us.lookup u with
    | some p => exact ⟨(a, us), by simp, by simp [scanLoop, hl], by simp [scanLoop, hl]⟩
    | none =>
      simp only [scanLoop, hl] at h ⊢
      obtain ⟨e, he, h1, h2⟩ := ih (a, "", false) rfl h
      exact ⟨e, List.mem_cons_of_mem _ he, h1, h2⟩

theorem scan_found (accounts : Accounts) (u : String)
    (h : (scan accounts u).2.2 = true) :
    ∃ e ∈ accounts, e.1 = (scan accounts u).1 ∧
      e.2.lookup u = some (scan accounts u).2.1 :=
  scanLoop_found u accounts ("", "", false) rfl h

/-- Authentication past envelope validation. -/
theorem Authentication_valid (f : Faults) (accounts : Accounts) (db : Store)
    (req : AuthorizationRequest) (hv : validEnvelope req = true)
    (hk : req.UserNkey ≠ "") :
    Authentication f accounts db (some req) =
      if (req.Username != "" && !(scan accounts req.Username).2.2) ||
          (scan accounts req.Username).2.1 != req.Password then
        respond f ⟨req.UserNkey, req.ServerID, "Authentication Failed", none⟩ db []
      else if req.Username != "" then
        if f.setnx then
          ⟨.failed .setFailed, db,
            [.setnx (reservationKey req.Name) (FormatUint req.ID)]⟩
        else if !(SetNX db (reservationKey req.Name) (FormatUint req.ID)).1 then
          respond f ⟨req.UserNkey, req.ServerID, "Unique Client Name Required", none⟩
            (SetNX db (reservationKey req.Name) (FormatUint req.ID)).2
            [.setnx (reservationKey req.Name) (FormatUint req.ID)]
        else
          grant f ⟨req.UserNkey, req.ServerID, "", none⟩
            ⟨req.UserNkey, (scan accounts req.Username).1⟩
            (SetNX db (reservationKey req.Name) (FormatUint req.ID)).2
            [.setnx (reservationKey req.Name) (FormatUint req.ID)]
      else
        grant f ⟨req.UserNkey, req.ServerID, "", none⟩ ⟨req.UserNkey, "$G"⟩ db [] := by
  simp only [validEnvelope, Bool.and_eq_true, beq_iff_eq] at hv
  obtain ⟨⟨h1, h2⟩, h3⟩ := hv
  have h1c := h1
  rw [h2] at h1c
  simp [Authentication, NewAuthorizationResponseClaims, NewUserClaims, h1c, h2, h3, hk]

/-- Authentication of a request with an empty user key, past envelope
validation: the handler crashes, the store is not touched. -/
theorem Authentication_keyless (f : Faults) (accounts : Accounts) (db : Store)
    (req : AuthorizationRequest) (hv : validEnvelope req = true)
    (hk : req.UserNkey = "") :
    Authentication f accounts db (some req) = ⟨.crashed, db, []⟩ := by
  simp only [validEnvelope, Bool.and_eq_true, beq_iff_eq] at hv
  obtain ⟨⟨h1, h2⟩, h3⟩ := hv
  have h1c := h1
  rw [h2] at h1c
  simp [Authentication, NewAuthorizationResponseClaims, h1c, h2, h3, hk]


/-! ## Decimal rendering and parsing -/

theorem digitChar_spec : ∀ d, d < 10 →
    (Nat.digitChar d).isDigit = true ∧ (Nat.digitChar d).toNat - '0'.toNat = d ∧
      Nat.digitChar d ≠ '-' ∧ Nat.digitChar d ≠ '+' := by
  decide

theorem parseDigits_formatBits : ∀ (fuel u : Nat) (acc : List Char), u < fuel →
    parseDigits (formatBits fuel u acc) 0 = parseDigits acc u := by
  intro fuel
  induction fuel with
  | zero => intro u acc h; omega
  | succ n ih =>
    intro u acc h
    unfold formatBits
    split
    · next hu =>
      obtain ⟨h1, h2, _⟩ := digitChar_spec u hu
      simp only [parseDigits, h1, h2, if_true, Nat.zero_mul, Nat.zero_add]
    · next hu =>
      have hlt : u / 10 < n := by omega
      rw [ih (u / 10) _ hlt]
      obtain ⟨h1, h2, _⟩ := digitChar_spec (u % 10) (Nat.mod_lt _ (by decide))
      simp only [parseDigits, h1, h2, if_true]
      congr 1
      omega

theorem formatBits_head : ∀ (fuel u : Nat) (acc : List Char), u < fuel →
    ∃ c rest, formatBits fuel u acc = c :: rest ∧ c ≠ '-' ∧ c ≠ '+' := by
  intro fuel
  induction fuel with
  | zero => intro u acc h; omega
  | succ n ih =>
    intro u acc h
    unfold formatBits
    split
    · next hu =>
      obtain ⟨_, _, h3, h4⟩ := digitChar_spec u hu
      exact ⟨_, _, rfl, h3, h4⟩
    · next hu => exact ih (u / 10) _ (by omega)

/-- Reading back a rendered `uint64` as an `int`: the value when it fits, a
range error otherwise. -/
theorem Atoi_FormatUint (u : Nat) :
    Atoi (FormatUint u) = if u < 2 ^ 63 then some (u : Int) else none := by
  obtain ⟨c, rest, hf, hc1, hc2⟩ := formatBits_head (u + 1) u [] (Nat.lt_succ_self u)
  have hp := parseDigits_formatBits (u + 1) u [] (Nat.lt_succ_self u)
  rw [hf] at hp
  have hsplit : (match c :: rest with
      | '-' :: r => ((true, r) : Bool × List Char)
      | '+' :: r => (false, r)
      | l => (false, l)) = (false, c :: rest) := by
    split
    · next h => simp at h; exact absurd h.1 hc1
    · next h => simp at h; exact absurd h.1 hc2
    · rfl
  unfold Atoi FormatUint
  simp only [hf, hsplit, hp, parseDigits, List.isEmpty_cons, Bool.false_eq_true, if_false]
  by_cases h : u < 2 ^ 63
  · rw [if_neg (Nat.not_le.mpr h), if_pos h]
  · rw [if_pos (Nat.not_lt.mp h), if_neg h]


/-! ## Base64 -/

theorem encodeChar_injOn : ∀ i, i < 64 → ∀ j, j < 64 →
    encodeChar i = encodeChar j → i = j := by
  decide

theorem encodeChar_ne_padding : ∀ i, i < 64 → encodeChar i ≠ StdPadding := by
  decide

theorem EncodeToString_injective : ∀ l₁ l₂ : List Byte,
    EncodeToString l₁ = EncodeToString l₂ → l₁ = l₂ := by
  intro l₁
  induction l₁ using EncodeToString.induct with
  | case1 =>
    intro l₂ h
    match l₂ with
    | [] => rfl
    | [_] => simp [EncodeToString] at h
    | [_, _] => simp [EncodeToString] at h
    | _ :: _ :: _ :: _ => simp [EncodeToString] at h
  | case2 a =>
    intro l₂ h
    match l₂ with
    | [] => simp [EncodeToString] at h
    | [x] =>
      simp only [EncodeToString, List.cons.injEq, and_true] at h
      have h1 := encodeChar_injOn _ (by omega) _ (by omega) h.1
      have h2 := encodeChar_injOn _ (by omega) _ (by omega) h.2
      have : a.val = x.val := by omega
      rw [Fin.ext this]
    | [x, y] =>
      simp only [EncodeToString, List.cons.injEq, and_true] at h
      exact absurd h.2.2.symm (encodeChar_ne_padding _ (by omega))
    | x :: y :: z :: r =>
      simp only [EncodeToString, List.cons.injEq] at h
      exact absurd h.2.2.1.symm (encodeChar_ne_padding _ (by omega))
  | case3 a b =>
    intro l₂ h
    match l₂ with
    | [] => simp [EncodeToString] at h
    | [x] =>
      simp only [EncodeToString, List.cons.injEq, and_true] at h
      exact absurd h.2.2 (encodeChar_ne_padding _ (by omega))
    | [x, y] =>
      simp only [EncodeToString, List.cons.injEq, and_true] at h
      have h1 := encodeChar_injOn _ (by omega) _ (by omega) h.1
      have h2 := encodeChar_injOn _ (by omega) _ (by omega) h.2.1
      have h3 := encodeChar_injOn _ (by omega) _ (by omega) h.2.2
      have ha : a.val = x.val := by omega
      have hb : b.val = y.val := by omega
      rw [Fin.ext ha, Fin.ext hb]
    | x :: y :: z :: r =>
      simp only [EncodeToString, List.cons.injEq] at h
      exact absurd h.2.2.2.1.symm (encodeChar_ne_padding _ (by omega))
  | case4 a b c rest ih =>
    intro l₂ h
    match l₂ with
    | [] => simp [EncodeToString] at h
    | [x] =>
      simp only [EncodeToString, List.cons.injEq] at h
      exact absurd h.2.2.1 (encodeChar_ne_padding _ (by omega))
    | [x, y] =>
      simp only [EncodeToString, List.cons.injEq] at h
      exact absurd h.2.2.2.1 (encodeChar_ne_padding _ (by omega))
    | x :: y :: z :: r =>
      simp only [EncodeToString, List.cons.injEq] at h
      obtain ⟨e1, e2, e3, e4, e5⟩ := h
      have h1 := encodeChar_injOn _ (by omega) _ (by omega) e1
      have h2 := encodeChar_injOn _ (by omega) _ (by omega) e2
      have h3 := encodeChar_injOn _ (by omega) _ (by omega) e3
      have h4 := encodeChar_injOn _ (by omega) _ (by omega) e4
      have ha : a.val = x.val := by omega
      have hb : b.val = y.val := by omega
      have hc : c.val = z.val := by omega
      rw [Fin.ext ha, Fin.ext hb, Fin.ext hc, ih r e5]

theorem reservationKey_inj (n₁ n₂ : List Byte)
    (h : reservationKey n₁ = reservationKey n₂) : n₁ = n₂ := by
  apply EncodeToString_injective
  have h2 := congrArg String.data h
  simpa [reservationKey, String.data_append] using h2


/-! ## Authentication: credentials -/

/-- A validated request with a non-empty user key and a non-empty username
that no credential set maps to the request's password is answered with the
denial "Authentication Failed" and no session token, whatever the store
holds: the store is unchanged and no store command is issued. The denial is
the only response the call can publish, and it is published when signing the
response and the reply succeed. -/
theorem wrong_credentials_denied (f : Faults) (accounts : Accounts) (db : Store)
    (req : AuthorizationRequest) (hv : validEnvelope req = true)
    (hk : req.UserNkey ≠ "") (hu : req.Username ≠ "")
    (hno : ∀ e ∈ accounts, e.2.lookup req.Username ≠ some req.Password) :
    (Authentication f accounts db (some req)).db = db ∧
    (Authentication f accounts db (some req)).ops = [] ∧
    (∀ res, (Authentication f accounts db (some req)).out = .sent res →
      res = ⟨req.UserNkey, req.ServerID, "Authentication Failed", none⟩) ∧
    (f.encodeResponse = false → f.respond = false →
      (Authentication f accounts db (some req)).out =
        .sent ⟨req.UserNkey, req.ServerID, "Authentication Failed", none⟩) := by
  have hc : ((req.Username != "" && !(scan accounts req.Username).2.2) ||
      (scan accounts req.Username).2.1 != req.Password) = true := by
    cases hok : (scan accounts req.Username).2.2 with
    | false => simp [hu]
    | true =>
      obtain ⟨e, he, _, h2⟩ := scan_found accounts req.Username hok
      have := hno e he
      rw [h2] at this
      simp only [ne_eq, Option.some.injEq] at this
      simp [this]
  rw [Authentication_valid f accounts db req hv hk, if_pos hc]
  unfold respond
  cases f.encodeResponse <;> cases f.respond <;> simp

/-- C5 at a failing input: a validated request with the username `staff`, a
password no credential set has for it, and an empty user key. The claim's
conditions hold, yet `Authentication` sends no denial: the response claims
constructor returns `nil` for the empty key and the handler crashes on the
next line, before the scan. -/
theorem wrong_credentials_keyless_crash :
    validEnvelope (keylessRequest "staff" "secret" 7) = true ∧
    (keylessRequest "staff" "secret" 7).Username ≠ "" ∧
    (∀ e ∈ sampleAccounts, e.2.lookup (keylessRequest "staff" "secret" 7).Username ≠
      some (keylessRequest "staff" "secret" 7).Password) ∧
    Authentication Faults.none sampleAccounts [] (some (keylessRequest "staff" "secret" 7)) =
      ⟨.crashed, [], []⟩ ∧
    isDenial "Authentication Failed" (Authentication Faults.none sampleAccounts []
      (some (keylessRequest "staff" "secret" 7))) = false := by
  decide

/-- C7: when a validated request with a non-empty username is granted, the
audience of the session token is an account of the table whose credential
set maps the request's username to the request's password. -/
theorem granted_audience_matches (f : Faults) (accounts : Accounts) (db : Store)
    (req : AuthorizationRequest) (hv : validEnvelope req = true)
    (hu : req.Username ≠ "")
    (hg : isGrant (Authentication f accounts db (some req)) = true) :
    ∃ res tok, (Authentication f accounts db (some req)).out = .sent res ∧
      res.Jwt = some tok ∧
      ∃ e ∈ accounts, e.1 = tok.Audience ∧
        e.2.lookup req.Username = some req.Password := by
  have hk : req.UserNkey ≠ "" := by
    intro hk
    rw [Authentication_keyless f accounts db req hv hk] at hg
    simp [isGrant] at hg
  rw [Authentication_valid f accounts db req hv hk] at hg ⊢
  by_cases hc : ((req.Username != "" && !(scan accounts req.Username).2.2) ||
      (scan accounts req.Username).2.1 != req.Password) = true
  · rw [if_pos hc] at hg
    unfold respond isGrant at hg
    cases h1 : f.encodeResponse <;> cases h2 : f.respond <;> simp [h1, h2] at hg
  · rw [if_neg hc] at hg ⊢
    simp only [Bool.or_eq_true, Bool.and_eq_true, bne_iff_ne, ne_eq, Bool.not_eq_true',
      not_or, not_and, Decidable.not_not, Bool.not_eq_false] at hc
    obtain ⟨hok, hpw⟩ := hc
    have hok := hok hu
    obtain ⟨e, he, h1, h2⟩ := scan_found accounts req.Username hok
    have hne : (req.Username != "") = true := by simpa using hu
    rw [if_pos hne] at hg ⊢
    unfold grant respond isGrant at *
    cases h3 : f.setnx <;> cases h4 : f.encodeToken <;> cases h5 : f.encodeResponse <;>
      cases h6 : f.respond <;>
      cases h7 : (SetNX db (reservationKey req.Name) (FormatUint req.ID)).1 <;>
      simp [h3, h4, h5, h6, h7] at hg ⊢
    exact ⟨e.1, e.2, he, h1, hpw ▸ h2⟩

theorem granted_audience_matches_witness :
    validEnvelope (sampleRequest "staff" "password" 7) = true ∧
    (sampleRequest "staff" "password" 7).Username ≠ "" ∧
    isGrant (Authentication Faults.none sampleAccounts []
      (some (sampleRequest "staff" "password" 7))) = true ∧
    ∃ res tok, (Authentication Faults.none sampleAccounts []
        (some (sampleRequest "staff" "password" 7))).out = .sent res ∧
      res.Jwt = some tok ∧
      ∃ e ∈ sampleAccounts, e.1 = tok.Audience ∧
        e.2.lookup (sampleRequest "staff" "password" 7).Username =
          some (sampleRequest "staff" "password" 7).Password :=
  ⟨by decide, by decide, by decide,
    granted_audience_matches Faults.none sampleAccounts []
      (sampleRequest "staff" "password" 7) (by decide) (by decide) (by decide)⟩

theorem scanLoop_absent (u : String) (accounts : Accounts)
    (h : ∀ e ∈ accounts, e.2.lookup u = none) :
    ∀ st : String × String × Bool, st.2 = ("", false) →
      (scanLoop u accounts st).2 = ("", false) := by
  induction accounts with
  | nil => intro st h0; simpa [scanLoop] using h0
  | cons e rest ih =>
    intro st _
    obtain ⟨a, us⟩ := e
    have hl : us.lookup u = none := h (a, us) (by simp)
    simp only [scanLoop, hl]
    exact ih (fun e he => h e (List.mem_cons_of_mem _ he)) _ rfl

/-- C4, as stated, fails: a validated request with an empty username and the
password `x` against the table of `main.go` is answered with the denial
"Authentication Failed", not with a grant. -/
theorem empty_username_password_denied :
    validEnvelope (sampleRequest "" "x" 7) = true ∧
    (sampleRequest "" "x" 7).Username = "" ∧
    Authentication Faults.none sampleAccounts [] (some (sampleRequest "" "x" 7)) =
      ⟨.sent ⟨"UUSER", "NSERVER", "Authentication Failed", none⟩, [], []⟩ := by
  decide

/-- C4, amended: for a validated request with an empty username,
`Authentication` issues no store command and leaves the store as it is. When
the request's user key is not empty, its password equals the password the
account scan ends with (the empty string when no credential set has an entry
for the empty username) and signing and the reply succeed, the answer is a
grant whose session token has the audience `$G`; when the two passwords
differ, the only response the call can publish is the denial
"Authentication Failed". -/
theorem empty_username_grant (f : Faults) (accounts : Accounts) (db : Store)
    (req : AuthorizationRequest) (hv : validEnvelope req = true)
    (hu : req.Username = "") :
    (Authentication f accounts db (some req)).db = db ∧
    (Authentication f accounts db (some req)).ops = [] ∧
    (req.UserNkey ≠ "" → (scan accounts "").2.1 = req.Password →
      f.encodeToken = false → f.encodeResponse = false → f.respond = false →
      (Authentication f accounts db (some req)).out =
        .sent ⟨req.UserNkey, req.ServerID, "", some ⟨req.UserNkey, "$G"⟩⟩) ∧
    ((∀ e ∈ accounts, e.2.lookup "" = none) → (scan accounts "").2.1 = "") ∧
    ((scan accounts "").2.1 ≠ req.Password →
      ∀ res, (Authentication f accounts db (some req)).out = .sent res →
        res = ⟨req.UserNkey, req.ServerID, "Authentication Failed", none⟩) := by
  have habs : (∀ e ∈ accounts, e.2.lookup "" = none) → (scan accounts "").2.1 = "" := by
    intro h
    have := scanLoop_absent "" accounts h ("", "", false) rfl
    unfold scan
    rw [this]
  by_cases hk : req.UserNkey = ""
  · rw [Authentication_keyless f accounts db req hv hk]
    exact ⟨rfl, rfl, fun h => absurd hk h, habs, fun _ res h => by cases h⟩
  have hA : Authentication f accounts db (some req) =
      if (scan accounts "").2.1 = req.Password then
        grant f ⟨req.UserNkey, req.ServerID, "", none⟩ ⟨req.UserNkey, "$G"⟩ db []
      else respond f ⟨req.UserNkey, req.ServerID, "Authentication Failed", none⟩ db [] := by
    rw [Authentication_valid f accounts db req hv hk, hu]
    by_cases hp : (scan accounts "").2.1 = req.Password <;> simp [hp]
  rw [hA]
  refine ⟨?_, ?_, ?_, habs, ?_⟩
  · unfold grant respond
    split_ifs <;> rfl
  · unfold grant respond
    split_ifs <;> rfl
  · intro _ hp h1 h2 h3
    simp [hp, grant, respond, h1, h2, h3]
  · intro hp res hres
    rw [if_neg hp] at hres
    unfold respond at hres
    split_ifs at hres
    cases hres
    rfl

theorem empty_username_grant_witness :
    validEnvelope (sampleRequest "" "" 7) = true ∧
    (sampleRequest "" "" 7).Username = "" ∧
    (sampleRequest "" "" 7).UserNkey ≠ "" ∧
    (Authentication Faults.none sampleAccounts [] (some (sampleRequest "" "" 7))).out =
      .sent ⟨"UUSER", "NSERVER", "", some ⟨"UUSER", "$G"⟩⟩ :=
  ⟨by decide, by decide, by decide,
    (empty_username_grant Faults.none sampleAccounts [] (sampleRequest "" "" 7)
      (by decide) (by decide)).2.2.1 (by decide) (by decide) rfl rfl rfl⟩

/-- C6 at a failing input: account `B` maps `u` to the request's password
`p2`, yet with account `A` visited first the scan stops at `A`, whose
password for `u` differs, and the answer is "Authentication Failed"; with `B`
visited first the same request is granted. -/
theorem scan_stops_at_first_username :
    validEnvelope (sampleRequest "u" "p2" 7) = true ∧
    (∃ e ∈ twoAccounts, e.2.lookup "u" = some "p2") ∧
    twoAccounts.reverse.Perm twoAccounts ∧
    scan twoAccounts "u" = ("A", "p1", true) ∧
    Authentication Faults.none twoAccounts [] (some (sampleRequest "u" "p2" 7)) =
      ⟨.sent ⟨"UUSER", "NSERVER", "Authentication Failed", none⟩, [], []⟩ ∧
    isGrant (Authentication Faults.none twoAccounts.reverse []
      (some (sampleRequest "u" "p2" 7))) = true := by
  refine ⟨by decide, ⟨("B", [("u", "p2")]), by decide, by decide⟩, ?_, by decide, by decide,
    by decide⟩
  exact List.reverse_perm _


/-! ## The store commands -/

theorem Get_Del_self (db : Store) (key : String) : Get (Del db key) key = none := by
  induction db with
  | nil => rfl
  | cons e rest ih =>
    simp only [Del, Get] at ih ⊢
    rw [List.filter_cons]
    split_ifs with hc
    · have h2 : (key == e.1) = false := by
        simp only [bne_iff_ne, ne_eq] at hc
        simpa using fun h3 => hc h3.symm
      rw [List.lookup_cons, h2]
      exact ih
    · exact ih

theorem Del_absent (db : Store) (key : String) (h : Get db key = none) :
    Del db key = db := by
  induction db with
  | nil => rfl
  | cons e rest ih =>
    simp only [Del, Get] at ih h ⊢
    rw [List.lookup_cons] at h
    cases hk : key == e.1 with
    | true => simp [hk] at h
    | false =>
      simp only [hk] at h
      have h3 : (e.1 != key) = true := by
        simp only [beq_eq_false_iff_ne, ne_eq] at hk
        simpa using fun h4 => hk h4.symm
      rw [List.filter_cons, if_pos h3, ih h]

theorem Get_Del_other (db : Store) (key other : String) (h : other ≠ key) :
    Get (Del db key) other = Get db other := by
  induction db with
  | nil => rfl
  | cons e rest ih =>
    simp only [Del, Get] at ih ⊢
    rw [List.filter_cons]
    split_ifs with hc
    · rw [List.lookup_cons, List.lookup_cons, ih]
    · have h2 : (other == e.1) = false := by
        simp only [bne_iff_ne, ne_eq, Decidable.not_not] at hc
        simpa [hc] using h
      rw [List.lookup_cons, h2]
      exact ih

theorem SetNX_spec (db : Store) (key value : String) :
    (Get db key = none → SetNX db key value = (true, (key, value) :: db)) ∧
    (∀ v, Get db key = some v → SetNX db key value = (false, db)) := by
  unfold SetNX Get
  constructor
  · intro h; rw [h]
  · intro v h; rw [h]

theorem Get_cons_self (db : Store) (key value : String) :
    Get ((key, value) :: db) key = some value := by
  simp [Get, List.lookup]

theorem Get_cons_other (db : Store) (key value other : String) (h : other ≠ key) :
    Get ((key, value) :: db) other = Get db other := by
  have h2 : (other == key) = false := by simpa using h
  simp [Get, List.lookup, h2]


/-! ## Disconnection -/

/-- C2: with a managed account, a store that holds the reservation of a
display name with owner `b`, and a notification naming that display name with
a client id `a` different from `b`, `Disconnection` issues no `DEL`, leaves
the store as it is, and a lookup of the name's key afterwards still returns
`b`. -/
theorem stale_disconnect_keeps_owner (f : Faults) (accounts : Accounts) (db : Store)
    (account : String) (name : List Byte) (a : Int) (b : Nat)
    (hm : (accounts.lookup account).isSome = true) (hab : a ≠ (b : Int))
    (hres : Get db (reservationKey name) = some (FormatUint b)) :
    (Disconnection f accounts db (some ⟨account, name, a⟩)).db = db ∧
    StoreOp.del (reservationKey name) ∉
      (Disconnection f accounts db (some ⟨account, name, a⟩)).ops ∧
    Get (Disconnection f accounts db (some ⟨account, name, a⟩)).db (reservationKey name)
      = some (FormatUint b) := by
  have hdb : (Disconnection f accounts db (some ⟨account, name, a⟩)).db = db ∧
      StoreOp.del (reservationKey name) ∉
        (Disconnection f accounts db (some ⟨account, name, a⟩)).ops := by
    unfold Disconnection
    cases h1 : Unmarshal (some ⟨account, name, a⟩) with
    | none => simp
    | some req =>
      have hreq : req = ⟨account, name, a⟩ := by
        unfold Unmarshal at h1
        simp only at h1
        split_ifs at h1
        exact (Option.some.inj h1).symm
      subst hreq
      obtain ⟨users, hus⟩ := Option.isSome_iff_exists.mp hm
      simp only [hus, hres, Atoi_FormatUint]
      cases f.get with
      | true => simp
      | false =>
        by_cases hb : b < 9223372036854775808
        · have hne : ((b : Int) != a) = true := by
            simpa using fun h => hab h.symm
          simp [hb, hne]
        · simp [hb]
  exact ⟨hdb.1, hdb.2, by rw [hdb.1]; exact hres⟩

theorem stale_disconnect_keeps_owner_witness :
    (sampleAccounts.lookup "APP").isSome = true ∧ (7 : Int) ≠ ((8 : Nat) : Int) ∧
    Get [(reservationKey [97, 108, 105, 99, 101], FormatUint 8)]
      (reservationKey [97, 108, 105, 99, 101]) = some (FormatUint 8) ∧
    Get (Disconnection Faults.none sampleAccounts
      [(reservationKey [97, 108, 105, 99, 101], FormatUint 8)]
      (some ⟨"APP", [97, 108, 105, 99, 101], 7⟩)).db (reservationKey [97, 108, 105, 99, 101])
      = some (FormatUint 8) :=
  ⟨by decide, by decide, by decide,
    (stale_disconnect_keeps_owner Faults.none sampleAccounts
      [(reservationKey [97, 108, 105, 99, 101], FormatUint 8)] "APP"
      [97, 108, 105, 99, 101] 7 8 (by decide) (by decide) (by decide)).2.2⟩


/-- A delivery that finds no record for the name's key reads the key and
stops. -/
theorem Disconnection_absent (g : Faults) (accounts : Accounts) (db : Store)
    (req : Disconnect) (users : List (String × String))
    (hm : accounts.lookup req.Account = some users)
    (hu : Unmarshal (some req) = some req)
    (hget : Get db (reservationKey req.Name) = none) :
    Disconnection g accounts db (some req) =
      ⟨some .getFailed, db, [.get (reservationKey req.Name)]⟩ := by
  unfold Disconnection
  simp only [hu, hm, hget]
  cases g.get <;> rfl

/-- C9: once a notification has been handled with the store commands going
through, handling the same notification again leaves the store as the first
handling left it. When the first handling deleted the record, the second one
finds no record for the name: it reads the key, deletes nothing and changes
nothing. -/
theorem disconnection_idempotent (f g : Faults) (accounts : Accounts) (db : Store)
    (msg : Option Disconnect) (hget : f.get = false) (hdel : f.del = false) :
    (Disconnection g accounts (Disconnection f accounts db msg).db msg).db =
      (Disconnection f accounts db msg).db ∧
    ∀ key, StoreOp.del key ∈ (Disconnection f accounts db msg).ops →
      Get (Disconnection f accounts db msg).db key = none ∧
      Disconnection g accounts (Disconnection f accounts db msg).db msg =
        ⟨some .getFailed, (Disconnection f accounts db msg).db, [.get key]⟩ := by
  cases h1 : Unmarshal msg with
  | none => simp [Disconnection, h1]
  | some req =>
    have hmsg : msg = some req := by
      unfold Unmarshal at h1
      cases msg with
      | none => simp at h1
      | some r =>
        simp only at h1
        split_ifs at h1
        rw [Option.some.inj h1]
    subst hmsg
    cases h2 : accounts.lookup req.Account with
    | none => simp [Disconnection, h1, h2]
    | some users =>
      cases h3 : Get db (reservationKey req.Name) with
      | none =>
        have e1 := Disconnection_absent f accounts db req users h2 h1 h3
        have e2 := Disconnection_absent g accounts db req users h2 h1 h3
        rw [e1]
        simp only [e2]
        simp
      | some val =>
        cases h4 : Atoi val with
        | none =>
          have e1 : ∀ k : Faults, (Disconnection k accounts db (some req)).db = db := by
            intro k
            unfold Disconnection
            simp only [h1, h2, h3, h4]
            cases k.get <;> rfl
          have e3 : (Disconnection f accounts db (some req)).ops =
              [.get (reservationKey req.Name)] := by
            unfold Disconnection
            simp only [h1, h2, h3, h4]
            cases f.get <;> rfl
          rw [e1 f, e1 g, e3]
          simp
        | some id =>
          by_cases h5 : id = req.Id
          · have e1 : Disconnection f accounts db (some req) =
                ⟨none, Del db (reservationKey req.Name),
                  [.get (reservationKey req.Name), .del (reservationKey req.Name)]⟩ := by
              unfold Disconnection
              simp [h1, h2, h3, h4, h5, hget, hdel]
            have e2 := Disconnection_absent g accounts (Del db (reservationKey req.Name)) req
              users h2 h1 (Get_Del_self db _)
            rw [e1]
            simp only [e2]
            refine ⟨trivial, ?_⟩
            intro key hk
            simp only [List.mem_cons, StoreOp.del.injEq, List.mem_singleton, reduceCtorEq,
              false_or, List.not_mem_nil, or_false] at hk
            subst hk
            exact ⟨Get_Del_self db _, rfl⟩
          · have e1 : ∀ k : Faults, (Disconnection k accounts db (some req)).db = db := by
              intro k
              unfold Disconnection
              simp only [h1, h2, h3, h4]
              cases k.get <;> simp [h5]
            have e3 : (Disconnection f accounts db (some req)).ops =
                [.get (reservationKey req.Name)] := by
              unfold Disconnection
              simp only [h1, h2, h3, h4]
              cases f.get <;> simp [h5]
            rw [e1 f, e1 g, e3]
            simp

theorem disconnection_idempotent_witness :
    Faults.none.get = false ∧ Faults.none.del = false ∧
    (Disconnection Faults.none sampleAccounts
      (Disconnection Faults.none sampleAccounts
        [(reservationKey [97, 108, 105, 99, 101], FormatUint 7)]
        (some ⟨"APP", [97, 108, 105, 99, 101], 7⟩)).db
      (some ⟨"APP", [97, 108, 105, 99, 101], 7⟩)).db =
    (Disconnection Faults.none sampleAccounts
        [(reservationKey [97, 108, 105, 99, 101], FormatUint 7)]
        (some ⟨"APP", [97, 108, 105, 99, 101], 7⟩)).db :=
  ⟨rfl, rfl,
    (disconnection_idempotent Faults.none Faults.none sampleAccounts
      [(reservationKey [97, 108, 105, 99, 101], FormatUint 7)]
      (some ⟨"APP", [97, 108, 105, 99, 101], 7⟩) rfl rfl).1⟩


/-! ## Authentication: the reservation -/

/-- A request that fails envelope validation is dropped: an error is
returned, the store is not touched. -/
theorem Authentication_invalid (f : Faults) (accounts : Accounts) (db : Store)
    (req : AuthorizationRequest) (hv : ¬ validEnvelope req = true) :
    ∃ e, Authentication f accounts db (some req) = ⟨.failed e, db, []⟩ := by
  by_cases h1 : "N".data.isPrefixOf req.Issuer.data = true
  · by_cases h2 : req.Issuer = req.ServerID
    · by_cases h3 : req.Audience = "nats-authorization-request"
      · have h1c := h1
        rw [h2] at h1c
        exact absurd (by simp [validEnvelope, h1c, h2, h3]) hv
      · have h1c := h1
        rw [h2] at h1c
        exact ⟨.unexpectedAudience, by simp [Authentication, h1c, h2, h3]⟩
    · exact ⟨.issuersDontMatch, by simp [Authentication, h1, h2]⟩
  · exact ⟨.expectedServer, by simp [Authentication, h1]⟩

/-- C8, as stated, fails: with valid credentials, an empty store and a signer
that fails on the session token, `Authentication` returns an error and sends
nothing, yet the store now holds the reservation of the display name. -/
theorem token_failure_leaves_reservation :
    Authentication ⟨false, false, false, true, false, false⟩ sampleAccounts []
        (some (sampleRequest "staff" "password" 7)) =
      ⟨.failed .encodeToken, [("UNIQUER/YWxpY2U=", "7")],
        [.setnx "UNIQUER/YWxpY2U=" "7"]⟩ ∧
    isGrant (Authentication ⟨false, false, false, true, false, false⟩ sampleAccounts []
        (some (sampleRequest "staff" "password" 7))) = false ∧
    (Authentication ⟨false, false, false, true, false, false⟩ sampleAccounts []
        (some (sampleRequest "staff" "password" 7))).db ≠ [] := by
  decide

/-- C8, amended: when `Authentication` sends a denial, or returns an error
other than a failure to sign the token, to sign the response or to reply,
the store is the same as before the call. When it returns an error of one of
those three kinds, the store is the same as before or holds, in addition, the
reservation this call has just made: the key of the request's display name,
absent before, with the request's connection id. -/
theorem store_after_refusal (f : Faults) (accounts : Accounts) (db : Store)
    (msg : Option AuthorizationRequest) :
    (∀ res, (Authentication f accounts db msg).out = .sent res → res.Jwt = none →
      (Authentication f accounts db msg).db = db) ∧
    (∀ e, (Authentication f accounts db msg).out = .failed e →
      e ≠ .encodeToken → e ≠ .encodeResponse → e ≠ .respond →
      (Authentication f accounts db msg).db = db) ∧
    (∀ e, (Authentication f accounts db msg).out = .failed e →
      (Authentication f accounts db msg).db = db ∨
      ∃ req, msg = some req ∧ Get db (reservationKey req.Name) = none ∧
        (Authentication f accounts db msg).db =
          (reservationKey req.Name, FormatUint req.ID) :: db) := by
  cases msg with
  | none => simp [Authentication]
  | some req =>
    by_cases hv : validEnvelope req = true
    · by_cases hk : req.UserNkey = ""
      · rw [Authentication_keyless f accounts db req hv hk]
        exact ⟨fun _ _ _ => rfl, fun _ _ _ _ _ => rfl, fun _ _ => Or.inl rfl⟩
      rw [Authentication_valid f accounts db req hv hk]
      obtain ⟨fs, fg, fd, ft, fe, fr⟩ := f
      generalize ((req.Username != "" && !(scan accounts req.Username).2.2) ||
        (scan accounts req.Username).2.1 != req.Password) = c1
      generalize (req.Username != "") = c2
      cases hget : Get db (reservationKey req.Name) with
      | some v =>
        rw [((SetNX_spec db (reservationKey req.Name) (FormatUint req.ID)).2 v hget)]
        unfold grant respond
        cases c1 <;> cases c2 <;> cases fs <;> cases ft <;> cases fe <;> cases fr <;> simp
      | none =>
        rw [((SetNX_spec db (reservationKey req.Name) (FormatUint req.ID)).1 hget)]
        unfold grant respond
        cases c1 <;> cases c2 <;> cases fs <;> cases ft <;> cases fe <;> cases fr <;>
          simp [hget]
    · obtain ⟨e, he⟩ := Authentication_invalid f accounts db req hv
      have hdb : (Authentication f accounts db (some req)).db = db ∧
          ∀ res, (Authentication f accounts db (some req)).out ≠ .sent res := by
        rw [he]
        exact ⟨rfl, fun res h => by cases h⟩
      refine ⟨fun res h _ => absurd h (hdb.2 res), fun _ _ _ _ _ => hdb.1,
        fun _ _ => Or.inl hdb.1⟩


theorem store_after_refusal_witness :
    (Authentication ⟨false, false, false, true, false, false⟩ sampleAccounts []
        (some (sampleRequest "staff" "password" 7))).db = [] ∨
      ∃ req, some (sampleRequest "staff" "password" 7) = some req ∧
        Get [] (reservationKey req.Name) = none ∧
        (Authentication ⟨false, false, false, true, false, false⟩ sampleAccounts []
          (some (sampleRequest "staff" "password" 7))).db =
          (reservationKey req.Name, FormatUint req.ID) :: [] :=
  (store_after_refusal ⟨false, false, false, true, false, false⟩ sampleAccounts []
    (some (sampleRequest "staff" "password" 7))).2.2 .encodeToken (by decide)

/-- With every step succeeding, a validated request with a non-empty user key
and a non-empty username whose password matches in the account the scan selects reserves a free name
and is granted with that account as audience. -/
theorem Authentication_reserve (accounts : Accounts) (db : Store)
    (req : AuthorizationRequest) (hv : validEnvelope req = true)
    (hk : req.UserNkey ≠ "") (hu : req.Username ≠ "") (hok : (scan accounts req.Username).2.2 = true)
    (hpw : (scan accounts req.Username).2.1 = req.Password)
    (hfree : Get db (reservationKey req.Name) = none) :
    Authentication Faults.none accounts db (some req) =
      ⟨.sent ⟨req.UserNkey, req.ServerID, "",
          some ⟨req.UserNkey, (scan accounts req.Username).1⟩⟩,
        (reservationKey req.Name, FormatUint req.ID) :: db,
        [.setnx (reservationKey req.Name) (FormatUint req.ID)]⟩ := by
  rw [Authentication_valid Faults.none accounts db req hv hk,
    (SetNX_spec db (reservationKey req.Name) (FormatUint req.ID)).1 hfree]
  simp [hu, hok, hpw, grant, respond, Faults.none]

/-- With every step succeeding, the same request against a name that is
reserved is denied, and the store stays as it is. -/
theorem Authentication_conflict (accounts : Accounts) (db : Store)
    (req : AuthorizationRequest) (hv : validEnvelope req = true)
    (hk : req.UserNkey ≠ "") (hu : req.Username ≠ "") (hok : (scan accounts req.Username).2.2 = true)
    (hpw : (scan accounts req.Username).2.1 = req.Password) (v : String)
    (hheld : Get db (reservationKey req.Name) = some v) :
    Authentication Faults.none accounts db (some req) =
      ⟨.sent ⟨req.UserNkey, req.ServerID, "Unique Client Name Required", none⟩, db,
        [.setnx (reservationKey req.Name) (FormatUint req.ID)]⟩ := by
  rw [Authentication_valid Faults.none accounts db req hv hk,
    (SetNX_spec db (reservationKey req.Name) (FormatUint req.ID)).2 v hheld]
  simp [hu, hok, hpw, respond, Faults.none]

/-- A grant to a request with a non-empty username means the envelope was
valid, the user key not empty, and the password matched in the account the
scan selected. -/
theorem grant_credentials (f : Faults) (accounts : Accounts) (db : Store)
    (req : AuthorizationRequest) (hu : req.Username ≠ "")
    (hg : isGrant (Authentication f accounts db (some req)) = true) :
    validEnvelope req = true ∧ req.UserNkey ≠ "" ∧
      (scan accounts req.Username).2.2 = true ∧
      (scan accounts req.Username).2.1 = req.Password := by
  by_cases hv : validEnvelope req = true
  · have hk : req.UserNkey ≠ "" := by
      intro hk
      rw [Authentication_keyless f accounts db req hv hk] at hg
      simp [isGrant] at hg
    refine ⟨hv, hk, ?_⟩
    rw [Authentication_valid f accounts db req hv hk] at hg
    by_cases hc : ((req.Username != "" && !(scan accounts req.Username).2.2) ||
        (scan accounts req.Username).2.1 != req.Password) = true
    · rw [if_pos hc] at hg
      unfold respond isGrant at hg
      cases h1 : f.encodeResponse <;> cases h2 : f.respond <;> simp [h1, h2] at hg
    · simp only [Bool.or_eq_true, Bool.and_eq_true, bne_iff_ne, ne_eq, Bool.not_eq_true',
        not_or, not_and, Decidable.not_not, Bool.not_eq_false] at hc
      exact ⟨hc.1 hu, hc.2⟩
  · obtain ⟨e, he⟩ := Authentication_invalid f accounts db req hv
    rw [he] at hg
    simp [isGrant] at hg


/-- Requests for a name that is reserved, served one after another: none is
granted, every one is denied for the name, the store stays as it is. -/
theorem serve_held (name : List Byte) (reqs : List (Accounts × AuthorizationRequest)) :
    ∀ (db : Store) (v : String), Get db (reservationKey name) = some v →
      (∀ p ∈ reqs, validEnvelope p.2 = true ∧ p.2.UserNkey ≠ "" ∧ p.2.Username ≠ "" ∧
        (scan p.1 p.2.Username).2.2 = true ∧
        (scan p.1 p.2.Username).2.1 = p.2.Password ∧ p.2.Name = name) →
      (serve Faults.none db reqs).length = reqs.length ∧
      ((serve Faults.none db reqs).filter isGrant).length = 0 ∧
      ((serve Faults.none db reqs).filter
        (isDenial "Unique Client Name Required")).length = reqs.length := by
  induction reqs with
  | nil => intro db v _ _; simp [serve]
  | cons p rest ih =>
    intro db v hheld hreqs
    obtain ⟨hv, hk, hu, hok, hpw, hname⟩ := hreqs p (List.mem_cons_self _ _)
    have hheld2 : Get db (reservationKey p.2.Name) = some v := by rw [hname]; exact hheld
    have hA := Authentication_conflict p.1 db p.2 hv hk hu hok hpw v hheld2
    obtain ⟨h0, h1, h2⟩ := ih db v hheld (fun q hq => hreqs q (List.mem_cons_of_mem _ hq))
    obtain ⟨accounts, req⟩ := p
    simp only [serve, hA]
    have hg : isGrant ⟨.sent ⟨req.UserNkey, req.ServerID, "Unique Client Name Required",
        none⟩, db, [.setnx (reservationKey req.Name) (FormatUint req.ID)]⟩ = false := by
      simp [isGrant]
    have hd : isDenial "Unique Client Name Required"
        ⟨.sent ⟨req.UserNkey, req.ServerID, "Unique Client Name Required", none⟩, db,
          [.setnx (reservationKey req.Name) (FormatUint req.ID)]⟩ = true := by
      simp [isDenial]
    rw [List.filter_cons_of_neg (by simp [hg]), List.filter_cons_of_pos hd]
    exact ⟨by simp [h0], h1, by simp [h2]⟩

/-- N ≥ 1 validated requests with a non-empty user key and a non-empty
username, each with a password that matches in the account its scan selects,
all declaring the same display name, handled one after another (in the order
of the list, which is arbitrary) against one store that holds no reservation
for the name, with no step failing: exactly one request, the first handled,
is answered with a grant and the other N − 1 are answered with the denial
"Unique Client Name Required". -/
theorem one_grant_per_name (db : Store) (name : List Byte)
    (reqs : List (Accounts × AuthorizationRequest)) (hn : 1 ≤ reqs.length)
    (hfree : Get db (reservationKey name) = none)
    (hreqs : ∀ p ∈ reqs, validEnvelope p.2 = true ∧ p.2.UserNkey ≠ "" ∧
      p.2.Username ≠ "" ∧ (scan p.1 p.2.Username).2.2 = true ∧
      (scan p.1 p.2.Username).2.1 = p.2.Password ∧ p.2.Name = name) :
    (serve Faults.none db reqs).length = reqs.length ∧
    ((serve Faults.none db reqs).filter isGrant).length = 1 ∧
    ((serve Faults.none db reqs).filter
      (isDenial "Unique Client Name Required")).length = reqs.length - 1 ∧
    ((serve Faults.none db reqs).head?.map isGrant) = some true := by
  match reqs, hn, hreqs with
  | p :: rest, _, hreqs =>
    obtain ⟨hv, hk, hu, hok, hpw, hname⟩ := hreqs p (List.mem_cons_self _ _)
    have hfree2 : Get db (reservationKey p.2.Name) = none := by rw [hname]; exact hfree
    have hA := Authentication_reserve p.1 db p.2 hv hk hu hok hpw hfree2
    have hheld : Get ((reservationKey p.2.Name, FormatUint p.2.ID) :: db)
        (reservationKey name) = some (FormatUint p.2.ID) := by
      rw [hname]; exact Get_cons_self _ _ _
    obtain ⟨h0, h1, h2⟩ := serve_held name rest _ _ hheld
      (fun q hq => hreqs q (List.mem_cons_of_mem _ hq))
    obtain ⟨accounts, req⟩ := p
    simp only [serve, hA]
    have hg : isGrant ⟨.sent ⟨req.UserNkey, req.ServerID, "",
        some ⟨req.UserNkey, (scan accounts req.Username).1⟩⟩,
        (reservationKey req.Name, FormatUint req.ID) :: db,
        [.setnx (reservationKey req.Name) (FormatUint req.ID)]⟩ = true := by
      simp [isGrant]
    have hd : isDenial "Unique Client Name Required"
        ⟨.sent ⟨req.UserNkey, req.ServerID, "",
          some ⟨req.UserNkey, (scan accounts req.Username).1⟩⟩,
          (reservationKey req.Name, FormatUint req.ID) :: db,
          [.setnx (reservationKey req.Name) (FormatUint req.ID)]⟩ = false := by
      simp [isDenial]
    rw [List.filter_cons_of_pos hg, List.filter_cons_of_neg (by simp [hd])]
    refine ⟨by simp [h0], by simp [h1], by simpa using h2, by simp [hg]⟩

theorem one_grant_per_name_witness :
    1 ≤ [(sampleAccounts, sampleRequest "staff" "password" 7),
      (sampleAccounts, sampleRequest "staff" "password" 8),
      (sampleAccounts, sampleRequest "staff" "password" 9)].length ∧
    Get [] (reservationKey [97, 108, 105, 99, 101]) = none ∧
    ((serve Faults.none [] [(sampleAccounts, sampleRequest "staff" "password" 7),
      (sampleAccounts, sampleRequest "staff" "password" 8),
      (sampleAccounts, sampleRequest "staff" "password" 9)]).filter isGrant).length = 1 ∧
    ((serve Faults.none [] [(sampleAccounts, sampleRequest "staff" "password" 7),
      (sampleAccounts, sampleRequest "staff" "password" 8),
      (sampleAccounts, sampleRequest "staff" "password" 9)]).filter
        (isDenial "Unique Client Name Required")).length = 3 - 1 :=
  ⟨by decide, by decide,
    (one_grant_per_name [] [97, 108, 105, 99, 101]
      [(sampleAccounts, sampleRequest "staff" "password" 7),
        (sampleAccounts, sampleRequest "staff" "password" 8),
        (sampleAccounts, sampleRequest "staff" "password" 9)]
      (by decide) (by decide) (by decide)).2.1,
    (one_grant_per_name [] [97, 108, 105, 99, 101]
      [(sampleAccounts, sampleRequest "staff" "password" 7),
        (sampleAccounts, sampleRequest "staff" "password" 8),
        (sampleAccounts, sampleRequest "staff" "password" 9)]
      (by decide) (by decide) (by decide)).2.2.1⟩


/-- C1 at a failing input: N = 1, one validated request with the username
`staff`, the matching password and an empty user key, against an empty
store with no step failing. The claim's conditions hold, yet no request is
answered with a grant: the response claims constructor returns `nil` for the
empty key and the handler crashes before the scan, the store untouched. -/
theorem same_name_keyless_crash :
    validEnvelope (keylessRequest "staff" "password" 7) = true ∧
    (keylessRequest "staff" "password" 7).Username ≠ "" ∧
    (scan sampleAccounts (keylessRequest "staff" "password" 7).Username).2 =
      ((keylessRequest "staff" "password" 7).Password, true) ∧
    Get [] (reservationKey (keylessRequest "staff" "password" 7).Name) = none ∧
    serve Faults.none [] [(sampleAccounts, keylessRequest "staff" "password" 7)] =
      [⟨.crashed, [], []⟩] ∧
    ((serve Faults.none [] [(sampleAccounts, keylessRequest "staff" "password" 7)]).filter
      isGrant).length = 0 := by
  decide

/-! ## Release and reconnection -/

/-- C3, as stated, fails at the connection id `2 ^ 63`, which a request can
carry: the request is granted and the store holds the id; a notification
with that id does not decode into `int`, and for a notification that does
decode (here with the id wrapped to `-2 ^ 63`) the stored id is out of the
range of `Atoi`; either way the reservation stays, and a later request with
valid credentials and the same display name is denied. -/
theorem large_id_not_released :
    (2 : Nat) ^ 63 < 2 ^ 64 ∧
    Authentication Faults.none sampleAccounts []
        (some (sampleRequest "staff" "password" (2 ^ 63))) =
      ⟨.sent ⟨"UUSER", "NSERVER", "", some ⟨"UUSER", "APP"⟩⟩,
        [("UNIQUER/YWxpY2U=", "9223372036854775808")],
        [.setnx "UNIQUER/YWxpY2U=" "9223372036854775808"]⟩ ∧
    Disconnection Faults.none sampleAccounts [("UNIQUER/YWxpY2U=", "9223372036854775808")]
        (some ⟨"APP", [97, 108, 105, 99, 101], 2 ^ 63⟩) =
      ⟨some .unmarshal, [("UNIQUER/YWxpY2U=", "9223372036854775808")], []⟩ ∧
    Disconnection Faults.none sampleAccounts [("UNIQUER/YWxpY2U=", "9223372036854775808")]
        (some ⟨"APP", [97, 108, 105, 99, 101], -(2 ^ 63)⟩) =
      ⟨some .getFailed, [("UNIQUER/YWxpY2U=", "9223372036854775808")],
        [.get "UNIQUER/YWxpY2U="]⟩ ∧
    Authentication Faults.none sampleAccounts [("UNIQUER/YWxpY2U=", "9223372036854775808")]
        (some (sampleRequest "staff" "password" 9)) =
      ⟨.sent ⟨"UUSER", "NSERVER", "Unique Client Name Required", none⟩,
        [("UNIQUER/YWxpY2U=", "9223372036854775808")], [.setnx "UNIQUER/YWxpY2U=" "9"]⟩ := by
  decide

/-- C3, amended: for a connection id below `2 ^ 63`. After `Authentication`
grants a request with a non-empty username against a store with no
reservation for its display name, `Disconnection` for the notification with
a managed account, that name and that id returns no error, issues the
`DEL` and leaves no reservation for the name; a later validated request with
a non-empty user key and a non-empty username whose password matches in the
account the scan selects, declaring the same display name, is granted. No
step fails in the three calls; each call visits the account table in an
order of its own. -/
theorem release_then_regrant (accounts₁ accounts₂ accounts₃ : Accounts) (db : Store)
    (req next : AuthorizationRequest) (account : String)
    (hfree : Get db (reservationKey req.Name) = none)
    (hu : req.Username ≠ "") (hid : req.ID < 2 ^ 63)
    (hg : isGrant (Authentication Faults.none accounts₁ db (some req)) = true)
    (hm : (accounts₂.lookup account).isSome = true)
    (hv : validEnvelope next = true) (hnk : next.UserNkey ≠ "")
    (hnu : next.Username ≠ "")
    (hok : (scan accounts₃ next.Username).2.2 = true)
    (hpw : (scan accounts₃ next.Username).2.1 = next.Password)
    (hname : next.Name = req.Name) :
    (Disconnection Faults.none accounts₂
      (Authentication Faults.none accounts₁ db (some req)).db
      (some ⟨account, req.Name, req.ID⟩)).err = none ∧
    StoreOp.del (reservationKey req.Name) ∈ (Disconnection Faults.none accounts₂
      (Authentication Faults.none accounts₁ db (some req)).db
      (some ⟨account, req.Name, req.ID⟩)).ops ∧
    Get (Disconnection Faults.none accounts₂
      (Authentication Faults.none accounts₁ db (some req)).db
      (some ⟨account, req.Name, req.ID⟩)).db (reservationKey req.Name) = none ∧
    isGrant (Authentication Faults.none accounts₃
      (Disconnection Faults.none accounts₂
        (Authentication Faults.none accounts₁ db (some req)).db
        (some ⟨account, req.Name, req.ID⟩)).db (some next)) = true := by
  obtain ⟨hv1, hk1, hok1, hpw1⟩ := grant_credentials Faults.none accounts₁ db req hu hg
  rw [Authentication_reserve accounts₁ db req hv1 hk1 hu hok1 hpw1 hfree]
  obtain ⟨users, hus⟩ := Option.isSome_iff_exists.mp hm
  have hun : Unmarshal (some ⟨account, req.Name, (req.ID : Int)⟩) =
      some ⟨account, req.Name, (req.ID : Int)⟩ := by
    have h1 : minInt ≤ (req.ID : Int) := by unfold minInt; omega
    have h2 : (req.ID : Int) ≤ maxInt := by unfold maxInt; omega
    simp [Unmarshal, h1, h2]
  have hid2 : req.ID < 9223372036854775808 := hid
  have hD : Disconnection Faults.none accounts₂
      ((reservationKey req.Name, FormatUint req.ID) :: db)
      (some ⟨account, req.Name, req.ID⟩) =
      ⟨none, Del ((reservationKey req.Name, FormatUint req.ID) :: db)
          (reservationKey req.Name),
        [.get (reservationKey req.Name), .del (reservationKey req.Name)]⟩ := by
    unfold Disconnection
    simp only [hun, hus, Get_cons_self, Atoi_FormatUint]
    simp [hid2, Faults.none]
  simp only [hD]
  have hfree2 : Get (Del ((reservationKey req.Name, FormatUint req.ID) :: db)
      (reservationKey req.Name)) (reservationKey next.Name) = none := by
    rw [hname]; exact Get_Del_self _ _
  rw [Authentication_reserve accounts₃ _ next hv hnk hnu hok hpw hfree2]
  refine ⟨trivial, by simp, Get_Del_self _ _, by simp [isGrant]⟩

theorem release_then_regrant_witness :
    Get [] (reservationKey (sampleRequest "staff" "password" 7).Name) = none ∧
    (sampleRequest "staff" "password" 7).ID < 2 ^ 63 ∧
    (sampleAccounts.lookup "APP").isSome = true ∧
    isGrant (Authentication Faults.none sampleAccounts
      (Disconnection Faults.none sampleAccounts
        (Authentication Faults.none sampleAccounts []
          (some (sampleRequest "staff" "password" 7))).db
        (some ⟨"APP", (sampleRequest "staff" "password" 7).Name,
          (sampleRequest "staff" "password" 7).ID⟩)).db
      (some (sampleRequest "staff" "password" 9))) = true :=
  ⟨by decide, by decide, by decide,
    (release_then_regrant sampleAccounts sampleAccounts sampleAccounts []
      (sampleRequest "staff" "password" 7) (sampleRequest "staff" "password" 9) "APP"
      (by decide) (by decide) (by decide) (by decide) (by decide) (by decide) (by decide)
      (by decide) (by decide) (by decide) (by decide)).2.2.2⟩

/-! ## The reservation key -/

/-- C10: the key both handlers compute is `UNIQUER/` followed by the standard
base64 encoding of the display name's bytes (on the RFC 4648 test vectors
`f`, `fo`, `foo`, `foob` the encoding gives `Zg==`, `Zm8=`, `Zm9v`,
`Zm9vYg==`): every store command of `Authentication` and of `Disconnection`
has that key. The key is collision-free: equal keys imply equal names, so
claiming or deleting the reservation of one name leaves the lookup of any
other name as it was. -/
theorem reservationKey_collision_free :
    (∀ name, reservationKey name = "UNIQUER/" ++ String.mk (EncodeToString name)) ∧
    (String.mk (EncodeToString [102]) = "Zg==" ∧
      String.mk (EncodeToString [102, 111]) = "Zm8=" ∧
      String.mk (EncodeToString [102, 111, 111]) = "Zm9v" ∧
      String.mk (EncodeToString [102, 111, 111, 98]) = "Zm9vYg==") ∧
    (∀ f accounts db req, ∀ op ∈ (Authentication f accounts db (some req)).ops,
      op.key = "UNIQUER/" ++ String.mk (EncodeToString req.Name)) ∧
    (∀ f accounts db req, ∀ op ∈ (Disconnection f accounts db (some req)).ops,
      op.key = "UNIQUER/" ++ String.mk (EncodeToString req.Name)) ∧
    (∀ n₁ n₂, reservationKey n₁ = reservationKey n₂ → n₁ = n₂) ∧
    (∀ (db : Store) (n₁ n₂ : List Byte) (v : String), n₁ ≠ n₂ →
      Get (SetNX db (reservationKey n₁) v).2 (reservationKey n₂) =
        Get db (reservationKey n₂) ∧
      Get (Del db (reservationKey n₁)) (reservationKey n₂) = Get db (reservationKey n₂)) := by
  refine ⟨fun _ => rfl, by decide, ?_, ?_, reservationKey_inj, ?_⟩
  · intro f accounts db req op hop
    by_cases hv : validEnvelope req = true
    · by_cases hk : req.UserNkey = ""
      · rw [Authentication_keyless f accounts db req hv hk] at hop
        simp at hop
      rw [Authentication_valid f accounts db req hv hk] at hop
      obtain ⟨fs, fg, fd, ft, fe, fr⟩ := f
      revert hop
      generalize ((req.Username != "" && !(scan accounts req.Username).2.2) ||
        (scan accounts req.Username).2.1 != req.Password) = c1
      generalize (req.Username != "") = c2
      generalize (SetNX db (reservationKey req.Name) (FormatUint req.ID)) = r
      obtain ⟨r1, r2⟩ := r
      unfold grant respond
      cases c1 <;> cases c2 <;> cases fs <;> cases ft <;> cases fe <;> cases fr <;>
        cases r1 <;> simp <;> intro h <;> rw [h] <;> rfl
    · obtain ⟨e, he⟩ := Authentication_invalid f accounts db req hv
      rw [he] at hop
      simp at hop
  · intro f accounts db req op hop
    have hops : (Disconnection f accounts db (some req)).ops = [] ∨
        (Disconnection f accounts db (some req)).ops = [.get (reservationKey req.Name)] ∨
        (Disconnection f accounts db (some req)).ops =
          [.get (reservationKey req.Name), .del (reservationKey req.Name)] := by
      cases h1 : Unmarshal (some req) with
      | none => simp [Disconnection, h1]
      | some r =>
        cases h2 : accounts.lookup r.Account with
        | none => simp [Disconnection, h1, h2]
        | some users =>
          have hr : r = req := by
            unfold Unmarshal at h1
            simp only at h1
            split_ifs at h1
            exact (Option.some.inj h1).symm
          subst hr
          cases h3 : f.get with
          | true => simp [Disconnection, h1, h2, h3]
          | false =>
            cases h4 : Get db (reservationKey r.Name) with
            | none => simp [Disconnection, h1, h2, h3, h4]
            | some val =>
              cases h5 : Atoi val with
              | none => simp [Disconnection, h1, h2, h3, h4, h5]
              | some id =>
                by_cases h6 : id = r.Id
                · cases h7 : f.del <;> simp [Disconnection, h1, h2, h3, h4, h5, h6, h7]
                · simp [Disconnection, h1, h2, h3, h4, h5, h6]
    rcases hops with h | h | h <;> rw [h] at hop <;> simp at hop
    · rw [hop]; rfl
    · rcases hop with h | h <;> rw [h] <;> rfl
  · intro db n₁ n₂ v hne
    have hk : reservationKey n₂ ≠ reservationKey n₁ :=
      fun h => hne (reservationKey_inj _ _ h).symm
    refine ⟨?_, Get_Del_other db _ _ hk⟩
    cases hget : Get db (reservationKey n₁) with
    | none =>
      rw [(SetNX_spec db (reservationKey n₁) v).1 hget]
      exact Get_cons_other db _ _ _ hk
    | some w => rw [(SetNX_spec db (reservationKey n₁) v).2 w hget]

theorem reservationKey_collision_free_witness :
    reservationKey [97] = reservationKey [97] ∧ ([97] : List Byte) = [97] :=
  ⟨rfl, reservationKey_collision_free.2.2.2.2.1 [97] [97] rfl⟩

end Uniq
